import Mathlib

/-
Verification of the batched transactional feature writer
(class Writer, src/osmi/Writer.hpp) against its specification.

The embedding is a shallow one: each method of the C++ class becomes a Lean
function over an explicit writer state, and every externally visible side
effect (OGR calls, mkdir, diagnostics to stderr) becomes an element of an
event trace that the function returns.  Fallible external calls (OGR results,
mkdir, getcwd, driver lookup) are driven by explicit oracle inputs, so that
the functions stay pure and executable.  The C++ `unsigned int` counter is
modelled as a natural number reduced modulo 2^32 at the increment, exactly
where the machine arithmetic could overflow.  Process termination via
`exit(1)` is modelled by returning an `exited` result (or `none` state)
carrying the exit code; by construction no events follow it.
-/

/-- Externally visible side effects of the writer, in program order.
Each constructor corresponds to one call site in src/osmi/Writer.hpp:
transaction operations on the layer, feature creation/destruction,
field creation, directory creation, data-source and layer creation,
and diagnostic lines written to stderr. -/
inductive Event where
  | startTransaction : Event
  | commitTransaction : Event
  | createFeatureCall : Event
  | destroyFeature : Event
  | createFieldCall (field_name : String) : Event
  | setFieldWidth (field_name : String) (width : Int) : Event
  | mkdirCall (dir : String) : Event
  | createDataSource (path : String) : Event
  | createLayerCall (layer_name : String) : Event
  | destroyDataSource : Event
  | diagnostic (msg : String) : Event
  | geometryDiagnostic (wayId : Int) (cause : String) : Event
deriving DecidableEq, Repr

/-- The mutable per-writer state the claims depend on: the transaction flag
`m_use_transaction` (set at construction, never changed) and the private
counter `num_features` (an `unsigned int`, initialised to 0). -/
structure WriterState where
  m_use_transaction : Bool
  num_features : Nat
deriving DecidableEq, Repr

/-- Modulus of the C++ `unsigned int` counter. -/
def UINT_MOD : Nat := 4294967296

/-- `OGRERR_NONE` is the zero success code of OGR. -/
def OGRERR_NONE : Nat := 0

/-- `#define NO_WIDTH -1` from the source. -/
def NO_WIDTH : Int := -1

/-- Writer::maybe_commit_transaction (Writer.hpp lines 106-113):
increment `num_features` (unsigned, hence mod 2^32); if transactions are
enabled and the counter exceeds 10000, commit the open transaction, start a
new one, and reset the counter to zero.  Returns the new state and the
emitted events. -/
def maybe_commit_transaction (s : WriterState) : WriterState × List Event :=
  if s.m_use_transaction = true ∧ (s.num_features + 1) % UINT_MOD > 10000 then
    (⟨s.m_use_transaction, 0⟩, [Event.commitTransaction, Event.startTransaction])
  else
    (⟨s.m_use_transaction, (s.num_features + 1) % UINT_MOD⟩, [])

/-- Writer::create_feature (Writer.hpp lines 72-80): ask the layer to create
the feature (the layer answer `e` is an oracle input); a non-success result
is fatal: a diagnostic is printed and the process exits (modelled by state
`none`).  On success the transient feature is destroyed and
`maybe_commit_transaction` runs. -/
def create_feature (s : WriterState) (e : Nat) : List Event × Option WriterState :=
  if e ≠ OGRERR_NONE then
    ([Event.createFeatureCall,
      Event.diagnostic ("Failed to create feature. e = " ++ toString e)], none)
  else
    (Event.createFeatureCall :: Event.destroyFeature :: (maybe_commit_transaction s).2,
     some (maybe_commit_transaction s).1)

/-- Writer::~Writer (Writer.hpp lines 31-36): if transactions are enabled,
commit the open transaction; then destroy (release) the data source.
Returned as the event trace of the destructor. -/
def writer_destructor (s : WriterState) : List Event :=
  (if s.m_use_transaction then [Event.commitTransaction] else [])
    ++ [Event.destroyDataSource]

/-- The writer state right after `create_fields` ran with transactions
enabled: flag set, counter 0 (its initialiser in Writer.hpp line 89). -/
def writerInit : WriterState := ⟨true, 0⟩

/-- A run of `n` calls to `create_feature` that all succeed (the layer
answers `OGRERR_NONE` each time), threading the state and concatenating the
event traces. -/
def run_features : Nat → WriterState → List Event × WriterState
  | 0, s => ([], s)
  | n + 1, s =>
    match create_feature s OGRERR_NONE with
    | (evs, some s2) =>
      let rest := run_features n s2
      (evs ++ rest.1, rest.2)
    | (evs, none) => (evs, s)

/-- Number of occurrences of event `e` in a trace. -/
def countEv (e : Event) : List Event → Nat
  | [] => 0
  | x :: rest => (if x = e then 1 else 0) + countEv e rest

/-- Trace well-formedness: every commit in the trace is immediately followed
by a transaction start. -/
def commitsFollowedByStart : List Event → Bool
  | [] => true
  | Event.commitTransaction :: rest =>
    match rest with
    | Event.startTransaction :: _ => commitsFollowedByStart rest
    | _ => false
  | _ :: rest => commitsFollowedByStart rest

/-- Number of features created strictly before the first commit of a trace. -/
def countBeforeCommit : List Event → Nat
  | [] => 0
  | Event.commitTransaction :: _ => 0
  | Event.createFeatureCall :: rest => 1 + countBeforeCommit rest
  | _ :: rest => countBeforeCommit rest

/-- Largest number of features created inside any commit-delimited segment of
a trace: `cur` features already counted in the open segment, `mx` the largest
closed segment seen so far. -/
def maxSegmentAux : List Event → Nat → Nat → Nat
  | [], cur, mx => max cur mx
  | Event.commitTransaction :: rest, cur, mx => maxSegmentAux rest 0 (max cur mx)
  | Event.createFeatureCall :: rest, cur, mx => maxSegmentAux rest (cur + 1) mx
  | _ :: rest, cur, mx => maxSegmentAux rest cur mx

/-- Result of a writer operation that may terminate the process: either a
value together with the emitted events, or process exit with the given code
after the emitted events (nothing runs past an exit). -/
inductive ProcResult (α : Type) where
  | ok (val : α) (events : List Event) : ProcResult α
  | exited (code : Nat) (events : List Event) : ProcResult α
deriving Repr

/-- Events emitted by an operation, whether it returned or exited. -/
def ProcResult.events : ProcResult α → List Event
  | .ok _ evs => evs
  | .exited _ evs => evs

/-- Oracle for the external calls made during construction: whether getcwd
succeeds and what it returns, whether the SQLite driver is registered, and
whether mkdir, CreateDataSource and CreateLayer succeed. -/
structure Env where
  cwd_ok : Bool
  cwd : String
  driver_available : Bool
  mkdir_ok : Bool
  datasource_ok : Bool
  layer_ok : Bool

/-- Writer::get_current_dir (Writer.hpp lines 137-151): getcwd, fatal on
failure. -/
def get_current_dir (env : Env) : ProcResult String :=
  if env.cwd_ok then .ok env.cwd []
  else .exited 1 [Event.diagnostic "ERROR: Could not get current directory."]

/-- Writer::create_dir (Writer.hpp lines 160-165): mkdir with mode 755,
fatal on failure. -/
def create_dir (env : Env) (dir : String) : ProcResult Unit :=
  if env.mkdir_ok then .ok () [Event.mkdirCall dir]
  else .exited 1 [Event.mkdirCall dir,
    Event.diagnostic ("Could not create directory " ++ dir ++ ".")]

/-- Writer::maybe_create_dir (Writer.hpp lines 153-158), together with the
process-wide flag Writer::is_output_dir_written (lines 91 and 168): create
the directory only when the flag is unset, setting the flag; when the flag is
already set, do nothing at all.  Returns the new flag value. -/
def maybe_create_dir (env : Env) (flag : Bool) (dir : String) : ProcResult Bool :=
  if !flag then
    match create_dir env dir with
    | .ok _ evs => .ok true evs
    | .exited c evs => .exited c evs
  else .ok flag []

/-- Writer::get_data_source (Writer.hpp lines 115-135): look up the SQLite
driver (fatal if absent), resolve the output directory against the process
working directory, create it at most once, and create the data source at
dir/layer_name.sqlite.  Returns whether the returned data source is non-null,
and the flag after the directory step. -/
def get_data_source (env : Env) (flag : Bool) (dir_name layer_name : String) :
    ProcResult (Bool × Bool) :=
  if !env.driver_available then
    .exited 1 [Event.diagnostic "SQLite driver not available."]
  else
    match get_current_dir env with
    | .exited c evs => .exited c evs
    | .ok cwd evs0 =>
      match maybe_create_dir env flag (cwd ++ "/" ++ dir_name) with
      | .exited c evs => .exited c (evs0 ++ evs)
      | .ok flag2 evs1 =>
        .ok (env.datasource_ok, flag2)
          (evs0 ++ evs1
            ++ [Event.createDataSource (cwd ++ "/" ++ dir_name ++ "/" ++ layer_name ++ ".sqlite")])

/-- Writer::create_layer (Writer.hpp lines 93-104): create the single layer,
fatal on failure. -/
def create_layer (env : Env) (layer_name : String) : ProcResult Unit :=
  if env.layer_ok then .ok () [Event.createLayerCall layer_name]
  else .exited 1 [Event.createLayerCall layer_name,
    Event.diagnostic ("Creation of layer " ++ layer_name ++ " failed.")]

/-- Writer::Writer (Writer.hpp lines 14-29): acquire the data source (fatal
when it comes back null) and create the layer; the member initialisers set
m_use_transaction from the argument and num_features to 0.  Returns the
writer state and the flag after construction. -/
def writer_construct (env : Env) (flag : Bool) (dirname layer_name : String)
    (use_transaction : Bool) : ProcResult (WriterState × Bool) :=
  match get_data_source env flag dirname layer_name with
  | .exited c evs => .exited c evs
  | .ok (ds_ok, flag2) evs =>
    if !ds_ok then
      .exited 1 (evs
        ++ [Event.diagnostic ("Creation of data source for layer " ++ layer_name ++ " failed.")])
    else
      match create_layer env layer_name with
      | .exited c evs2 => .exited c (evs ++ evs2)
      | .ok _ evs2 => .ok (⟨use_transaction, 0⟩, flag2) (evs ++ evs2)

/-- The field descriptors of Writer::field_config (Writer.hpp lines 50-54):
name, OGR field type (as its numeric code) and optional width. -/
structure field_config where
  name : String
  type : Nat
  width : Int
deriving DecidableEq, Repr

/-- Writer::create_fields (Writer.hpp lines 56-70): for each descriptor in
order, build a field definition (setting the width when it is not NO_WIDTH)
and add it to the layer; a failing CreateField (oracle: the Bool paired with
each descriptor) is fatal.  After all fields succeed, if transactions are
enabled, start a transaction. -/
def create_fields (use_transaction : Bool) (layer_name : String) :
    List (field_config × Bool) → ProcResult Unit
  | [] => .ok () (if use_transaction then [Event.startTransaction] else [])
  | (fc, field_ok) :: rest =>
    if field_ok then
      match create_fields use_transaction layer_name rest with
      | .ok v evs => .ok v
          ((if fc.width = NO_WIDTH then [] else [Event.setFieldWidth fc.name fc.width])
            ++ Event.createFieldCall fc.name :: evs)
      | .exited c evs => .exited c
          ((if fc.width = NO_WIDTH then [] else [Event.setFieldWidth fc.name fc.width])
            ++ Event.createFieldCall fc.name :: evs)
    else
      .exited 1
        ((if fc.width = NO_WIDTH then [] else [Event.setFieldWidth fc.name fc.width])
          ++ [Event.createFieldCall fc.name,
              Event.diagnostic ("Creating field " ++ fc.name ++ " for layer "
                ++ layer_name ++ " failed.")])

/-- A sequence of writer constructions within one process, threading the
process-wide is_output_dir_written flag; each pair is an output directory
name and a layer name. -/
def run_ctors (env : Env) : Bool → List (String × String) → Bool × List Event
  | flag, [] => (flag, [])
  | flag, (d, l) :: rest =>
    match writer_construct env flag d l true with
    | .ok (_, flag2) evs =>
      let r := run_ctors env flag2 rest
      (r.1, evs ++ r.2)
    | .exited _ evs => (flag, evs)

/-- Recogniser for mkdir events. -/
def isMkdir : Event → Bool
  | .mkdirCall _ => true
  | _ => false

/-- Number of mkdir invocations recorded in a trace. -/
def countMkdir (l : List Event) : Nat := (l.filter isMkdir).length

/-- The events a single successful field descriptor contributes: the optional
width setting and the CreateField call. -/
def fieldEvents (fc : field_config) : List Event :=
  (if fc.width = NO_WIDTH then [] else [Event.setFieldWidth fc.name fc.width])
    ++ [Event.createFieldCall fc.name]

/-- The events of a list of field descriptors, in list order. -/
def allFieldEvents : List (field_config × Bool) → List Event
  | [] => []
  | (fc, _) :: rest => fieldEvents fc ++ allFieldEvents rest

/-- A path record as the feeder sees it: either its geometry converts
successfully, or geometry construction raises a geometry error carrying the
originating way id and a human-readable cause. -/
inductive PathRecord where
  | valid : PathRecord
  | geomError (wayId : Int) (cause : String) : PathRecord
deriving DecidableEq, Repr

/-- Writer::catch_geometry_error (Writer.hpp lines 82-84): emit exactly one
diagnostic line carrying the way id and the error cause, and nothing else. -/
def catch_geometry_error (wayId : Int) (cause : String) : List Event :=
  [Event.geometryDiagnostic wayId cause]

/-- Modelled from the spec: the accept-path hook of the concrete per-geometry
writers is not under src (only the abstract base class Writer is); per the
spec, a geometry error raised during path geometry construction is caught at
the per-record boundary and reported through catch_geometry_error, no feature
is written for that record and the writer state is unchanged; a record whose
geometry converts goes through create_feature as usual. -/
def accept_path (s : WriterState) : PathRecord → List Event × Option WriterState
  | .geomError i m => (catch_geometry_error i m, some s)
  | .valid => create_feature s OGRERR_NONE

/-- Modelled from the spec: the feeder collaborator driving a stream of path
records into the writer, record by record; it stops early only if the
process exits. -/
def run_path_records : List PathRecord → WriterState → List Event × Option WriterState
  | [], s => ([], some s)
  | r :: rest, s =>
    match accept_path s r with
    | (evs, some s2) =>
      let t := run_path_records rest s2
      (evs ++ t.1, t.2)
    | (evs, none) => (evs, none)

/-- Recogniser for geometry-error diagnostics. -/
def isGeomDiag : Event → Bool
  | .geometryDiagnostic _ _ => true
  | _ => false

/-- Number of geometry-error diagnostics in a trace. -/
def countGeomDiag (l : List Event) : Nat := (l.filter isGeomDiag).length

/-- Recogniser for records whose geometry construction fails. -/
def isGeomErrorRec : PathRecord → Bool
  | .geomError _ _ => true
  | .valid => false

theorem countEv_nil (e : Event) : countEv e [] = 0 := rfl

theorem countEv_cons (e x : Event) (l : List Event) :
    countEv e (x :: l) = (if x = e then 1 else 0) + countEv e l := rfl

theorem countEv_append (e : Event) (l1 l2 : List Event) :
    countEv e (l1 ++ l2) = countEv e l1 + countEv e l2 := by
  induction l1 with
  | nil => simp [countEv]
  | cons x rest ih => simp [countEv, ih]; omega

/-- Success case of `create_feature`: the feature is created, destroyed, and
the transaction bookkeeping runs. -/
theorem create_feature_ok (s : WriterState) :
    create_feature s OGRERR_NONE
      = (Event.createFeatureCall :: Event.destroyFeature :: (maybe_commit_transaction s).2,
         some (maybe_commit_transaction s).1) := rfl

/-- Below the batch bound the counter just increments and no events fire. -/
theorem mct_low (c : Nat) (h : c + 1 ≤ 10000) :
    maybe_commit_transaction ⟨true, c⟩ = (⟨true, c + 1⟩, []) := by
  unfold maybe_commit_transaction
  have hm : (c + 1) % UINT_MOD = c + 1 := Nat.mod_eq_of_lt (by unfold UINT_MOD; omega)
  simp only [hm]
  rw [if_neg (fun hcon => absurd hcon.2 (by omega))]

/-- At the batch bound the writer commits, restarts and resets the counter. -/
theorem mct_high (c : Nat) (h1 : 10000 < c + 1) (h2 : c + 1 < UINT_MOD) :
    maybe_commit_transaction ⟨true, c⟩
      = (⟨true, 0⟩, [Event.commitTransaction, Event.startTransaction]) := by
  unfold maybe_commit_transaction
  have hm : (c + 1) % UINT_MOD = c + 1 := Nat.mod_eq_of_lt h2
  simp only [hm]
  rw [if_pos ⟨trivial, h1⟩]

/-- With transactions off, the counter increments (unsigned) and nothing else
happens. -/
theorem mct_off (c : Nat) :
    maybe_commit_transaction ⟨false, c⟩ = (⟨false, (c + 1) % UINT_MOD⟩, []) := by
  unfold maybe_commit_transaction
  rw [if_neg (fun hcon => by exact absurd hcon.1 (by simp))]

/-- The transaction bookkeeping emits either nothing or a commit immediately
followed by a restart. -/
theorem mct_events (s : WriterState) :
    (maybe_commit_transaction s).2 = []
    ∨ (maybe_commit_transaction s).2 = [Event.commitTransaction, Event.startTransaction] := by
  unfold maybe_commit_transaction
  by_cases h : s.m_use_transaction = true ∧ (s.num_features + 1) % UINT_MOD > 10000
  · right; rw [if_pos h]
  · left; rw [if_neg h]

/-- Key counting lemma: starting from a counter value `c ≤ 10000` with
transactions on, a run of `N` successful feature creations performs exactly
`(N + c) / 10001` commits and leaves the counter at `(N + c) % 10001`. -/
theorem run_features_spec (N : Nat) : ∀ c : Nat, c ≤ 10000 →
    countEv Event.commitTransaction (run_features N ⟨true, c⟩).1 = (N + c) / 10001
    ∧ (run_features N ⟨true, c⟩).2 = ⟨true, (N + c) % 10001⟩ := by
  induction N with
  | zero =>
    intro c h
    constructor
    · simp [run_features, countEv, Nat.div_eq_of_lt (by omega : c < 10001)]
    · simp [run_features, Nat.mod_eq_of_lt (by omega : c < 10001)]
  | succ n ih =>
    intro c h
    by_cases hc : c = 10000
    · subst hc
      have hmct := mct_high 10000 (by omega) (by unfold UINT_MOD; omega)
      have ih0 := ih 0 (by omega)
      have harith : n + 1 + 10000 = n + 10001 := by omega
      constructor
      · simp only [run_features, create_feature_ok, hmct]
        simp [countEv_append, countEv_cons, countEv_nil, ih0.1]
        omega
      · simp only [run_features, create_feature_ok, hmct]
        rw [harith, Nat.add_mod_right]
        exact ih0.2
    · have hle : c + 1 ≤ 10000 := by omega
      have hmct := mct_low c hle
      have ih1 := ih (c + 1) hle
      have harith : n + (c + 1) = n + 1 + c := by omega
      constructor
      · simp only [run_features, create_feature_ok, hmct]
        simp [countEv_append, countEv_cons, countEv_nil, ih1.1]
        omega
      · simp only [run_features, create_feature_ok, hmct]
        rw [← harith]
        exact ih1.2

theorem cfbs_cf (l : List Event) :
    commitsFollowedByStart (Event.createFeatureCall :: l) = commitsFollowedByStart l := rfl

theorem cfbs_df (l : List Event) :
    commitsFollowedByStart (Event.destroyFeature :: l) = commitsFollowedByStart l := rfl

theorem cfbs_start (l : List Event) :
    commitsFollowedByStart (Event.startTransaction :: l) = commitsFollowedByStart l := rfl

theorem cfbs_commit_start (l : List Event) :
    commitsFollowedByStart (Event.commitTransaction :: Event.startTransaction :: l)
      = commitsFollowedByStart (Event.startTransaction :: l) := rfl

/-- In every run of successful feature creations, each mid-run commit is
immediately followed by a transaction restart. -/
theorem run_cfbs (N : Nat) : ∀ s : WriterState,
    commitsFollowedByStart (run_features N s).1 = true := by
  induction N with
  | zero => intro s; rfl
  | succ n ih =>
    intro s
    simp only [run_features, create_feature_ok]
    rcases mct_events s with hm | hm <;> rw [hm]
    · simp only [List.nil_append, List.cons_append, cfbs_cf, cfbs_df]
      exact ih _
    · simp only [List.cons_append, List.nil_append, cfbs_cf, cfbs_df,
        cfbs_commit_start, cfbs_start]
      exact ih _

/-- C1: with transactions enabled, a sequence of N successful create_feature
calls followed by destruction of the writer performs exactly N / 10001
mid-run CommitTransaction calls plus one final commit from the destructor,
regardless of the counter value at teardown; each mid-run commit is
immediately followed by StartTransaction, and the committing branch of
maybe_commit_transaction resets the counter to zero. -/
theorem C1_batched_commit_count (N : Nat) :
    countEv Event.commitTransaction
        ((run_features N writerInit).1
          ++ writer_destructor (run_features N writerInit).2)
      = N / 10001 + 1
    ∧ commitsFollowedByStart (run_features N writerInit).1 = true
    ∧ (∀ c : Nat, (maybe_commit_transaction ⟨true, c⟩).2 = []
        ∨ ((maybe_commit_transaction ⟨true, c⟩).2
              = [Event.commitTransaction, Event.startTransaction]
           ∧ (maybe_commit_transaction ⟨true, c⟩).1.num_features = 0)) := by
  have hspec := run_features_spec N 0 (by omega)
  refine ⟨?_, run_cfbs N writerInit, ?_⟩
  · simp only [writerInit]
    rw [countEv_append, hspec.1, hspec.2]
    simp [writer_destructor, countEv]
  · intro c
    unfold maybe_commit_transaction
    by_cases hgt : (c + 1) % UINT_MOD > 10000
    · right
      rw [if_pos ⟨rfl, hgt⟩]
      exact ⟨rfl, rfl⟩
    · left
      rw [if_neg (fun hcon => hgt hcon.2)]

theorem cbc_cf_df (l : List Event) :
    countBeforeCommit (Event.createFeatureCall :: Event.destroyFeature :: l)
      = 1 + countBeforeCommit l := rfl

/-- Feature count of the first transaction of a run that starts with counter
`c`: the whole run when it stays below the bound, `10001 - c` otherwise. -/
theorem cbc_run (N : Nat) : ∀ c : Nat, c ≤ 10000 →
    countBeforeCommit (run_features N ⟨true, c⟩).1
      = if N + c ≤ 10000 then N else 10001 - c := by
  induction N with
  | zero =>
    intro c h
    rw [show (run_features 0 ⟨true, c⟩).1 = [] from rfl]
    rw [show countBeforeCommit [] = 0 from rfl]
    rw [if_pos (by omega : 0 + c ≤ 10000)]
  | succ n ih =>
    intro c h
    by_cases hc : c = 10000
    · subst hc
      have hmct := mct_high 10000 (by omega) (by unfold UINT_MOD; omega)
      simp only [run_features, create_feature_ok, hmct, List.cons_append,
        List.nil_append]
      rw [if_neg (by omega)]
      show 1 + 0 = 10001 - 10000
      omega
    · have hle : c + 1 ≤ 10000 := by omega
      have hmct := mct_low c hle
      simp only [run_features, create_feature_ok, hmct, List.cons_append,
        List.nil_append]
      rw [cbc_cf_df, ih (c + 1) hle]
      by_cases h2 : n + (c + 1) ≤ 10000
      · rw [if_pos h2, if_pos (by omega)]
        omega
      · rw [if_neg h2, if_neg (by omega)]
        omega

theorem msa_cf (l : List Event) (cur mx : Nat) :
    maxSegmentAux (Event.createFeatureCall :: l) cur mx
      = maxSegmentAux l (cur + 1) mx := rfl

theorem msa_df (l : List Event) (cur mx : Nat) :
    maxSegmentAux (Event.destroyFeature :: l) cur mx = maxSegmentAux l cur mx := rfl

theorem msa_commit (l : List Event) (cur mx : Nat) :
    maxSegmentAux (Event.commitTransaction :: l) cur mx
      = maxSegmentAux l 0 (max cur mx) := rfl

theorem msa_start (l : List Event) (cur mx : Nat) :
    maxSegmentAux (Event.startTransaction :: l) cur mx = maxSegmentAux l cur mx := rfl

/-- Segment bound for a full run followed by the destructor events: starting
with counter `c ≤ 10000` equal to the open-segment size, every transaction of
the whole trace holds at most 10001 features. -/
theorem msa_run (N : Nat) : ∀ c mx : Nat, c ≤ 10000 → mx ≤ 10001 →
    maxSegmentAux ((run_features N ⟨true, c⟩).1
        ++ [Event.commitTransaction, Event.destroyDataSource]) c mx ≤ 10001 := by
  induction N with
  | zero =>
    intro c mx h1 h2
    simp [run_features, maxSegmentAux]
    omega
  | succ n ih =>
    intro c mx h1 h2
    by_cases hc : c = 10000
    · subst hc
      have hmct := mct_high 10000 (by omega) (by unfold UINT_MOD; omega)
      simp only [run_features, create_feature_ok, hmct, List.cons_append,
        List.nil_append, List.append_assoc]
      rw [msa_cf, msa_df, msa_commit, msa_start]
      exact ih 0 (max (10000 + 1) mx) (by omega) (by omega)
    · have hle : c + 1 ≤ 10000 := by omega
      have hmct := mct_low c hle
      simp only [run_features, create_feature_ok, hmct, List.cons_append,
        List.nil_append, List.append_assoc]
      rw [msa_cf, msa_df]
      exact ih (c + 1) mx hle h2

/-- C2 counterexample: in a run of 10001 successful create_feature calls
starting right after the StartTransaction issued by create_fields, the first
(and only) commit closes a transaction that contains 10001 created features,
which exceeds the claimed bound of 10000. -/
theorem C2_transaction_bound_counterexample :
    countBeforeCommit (run_features 10001 writerInit).1 = 10001
    ∧ ¬ countBeforeCommit (run_features 10001 writerInit).1 ≤ 10000 := by
  have h := cbc_run 10001 0 (by omega)
  rw [if_neg (by omega)] at h
  simp only [writerInit]
  omega

/-- C2 amended: while use_transaction is enabled, every open transaction
covers at most 10001 created features: over the full trace of any number of
successful create_feature calls followed by teardown, no commit-delimited
segment contains more than 10001 feature creations. -/
theorem C2_transaction_bound_amended (N : Nat) :
    maxSegmentAux ((run_features N writerInit).1
        ++ writer_destructor (run_features N writerInit).2) 0 0 ≤ 10001 := by
  have hspec := run_features_spec N 0 (by omega)
  simp only [writerInit]
  rw [hspec.2]
  exact msa_run N 0 0 (by omega) (by omega)

/-- C6: on destruction with transactions enabled the open transaction is
committed, however small, and the commit strictly precedes the release of the
data source; with transactions disabled only the release happens, so the
commit-then-release order is fixed on every destruction path. -/
theorem C6_destructor_commit_then_release (c : Nat) :
    writer_destructor ⟨true, c⟩ = [Event.commitTransaction, Event.destroyDataSource]
    ∧ writer_destructor ⟨false, c⟩ = [Event.destroyDataSource] :=
  ⟨rfl, rfl⟩

/-- C9: with transactions enabled, after every create_feature call that
returns (does not terminate the process) the counter num_features is at most
10000: the incremented value is reset to zero in the same call whenever it
exceeds 10000, so the unsigned counter is bounded and cannot overflow. -/
theorem C9_counter_bounded (c e : Nat) (s2 : WriterState)
    (h : (create_feature ⟨true, c⟩ e).2 = some s2) :
    s2.num_features ≤ 10000 := by
  by_cases he : e ≠ OGRERR_NONE
  · rw [create_feature, if_pos he] at h
    simp at h
  · push_neg at he
    subst he
    rw [create_feature_ok] at h
    simp only [Option.some.injEq] at h
    subst h
    unfold maybe_commit_transaction
    by_cases hgt : (c + 1) % UINT_MOD > 10000
    · rw [if_pos ⟨rfl, hgt⟩]
      exact Nat.zero_le _
    · rw [if_neg (fun hcon => hgt hcon.2)]
      simp only []
      omega

theorem C9_counter_bounded_witness :
    ((create_feature ⟨true, 10000⟩ 0).2 = some ⟨true, 0⟩)
    ∧ (⟨true, 0⟩ : WriterState).num_features ≤ 10000 :=
  ⟨by decide, C9_counter_bounded 10000 0 ⟨true, 0⟩ (by decide)⟩

theorem countMkdir_append (l1 l2 : List Event) :
    countMkdir (l1 ++ l2) = countMkdir l1 + countMkdir l2 := by
  simp [countMkdir, List.filter_append]

/-- Construction with the process-wide flag already set performs no mkdir and
cannot fail on the directory, whatever mkdir would have answered. -/
theorem writer_construct_flag_set (cwd d l : String) (u mk : Bool) :
    writer_construct ⟨true, cwd, true, mk, true, true⟩ true d l u
      = .ok (⟨u, 0⟩, true)
          [Event.createDataSource (cwd ++ "/" ++ d ++ "/" ++ l ++ ".sqlite"),
           Event.createLayerCall l] := by
  simp [writer_construct, get_data_source, get_current_dir, maybe_create_dir,
    create_layer]

/-- After the flag is set, any further sequence of constructions performs no
mkdir and emits no diagnostic, whatever mkdir would have answered. -/
theorem run_ctors_flag_set (cwd : String) (mk : Bool) :
    ∀ ctors : List (String × String),
      countMkdir (run_ctors ⟨true, cwd, true, mk, true, true⟩ true ctors).2 = 0
      ∧ ∀ m : String,
          Event.diagnostic m ∉ (run_ctors ⟨true, cwd, true, mk, true, true⟩ true ctors).2 := by
  intro ctors
  induction ctors with
  | nil => exact ⟨rfl, by simp [run_ctors]⟩
  | cons p rest ih =>
    obtain ⟨d, l⟩ := p
    simp only [run_ctors, writer_construct_flag_set]
    constructor
    · rw [countMkdir_append, ih.1]
      rfl
    · intro m
      simp only [List.mem_append, List.mem_cons]
      rintro (⟨h1 | h1 | h1⟩ | h2)
      · exact Event.noConfusion h1
      · exact Event.noConfusion h1
      · exact absurd h1 (List.not_mem_nil _)
      · exact ih.2 m h2

/-- C3: across all writer constructions in one process (all against a
healthy environment), mkdir runs exactly once: the first construction
creates the directory, and every later construction skips creation without
any existence check (the mkdir oracle is irrelevant once the flag is set)
and without emitting any diagnostic. -/
theorem C3_dir_created_at_most_once (cwd d l : String)
    (rest : List (String × String)) :
    countMkdir (run_ctors ⟨true, cwd, true, true, true, true⟩ false ((d, l) :: rest)).2 = 1
    ∧ (∀ m : String,
        Event.diagnostic m ∉ (run_ctors ⟨true, cwd, true, true, true, true⟩ false ((d, l) :: rest)).2)
    ∧ (∀ (env : Env) (dir : String), maybe_create_dir env true dir = .ok true []) := by
  have hfirst : writer_construct ⟨true, cwd, true, true, true, true⟩ false d l true
      = .ok (⟨true, 0⟩, true)
          [Event.mkdirCall (cwd ++ "/" ++ d),
           Event.createDataSource (cwd ++ "/" ++ d ++ "/" ++ l ++ ".sqlite"),
           Event.createLayerCall l] := by
    simp [writer_construct, get_data_source, get_current_dir, maybe_create_dir,
      create_dir, create_layer]
  refine ⟨?_, ?_, fun env dir => rfl⟩
  · simp only [run_ctors, hfirst]
    rw [countMkdir_append, (run_ctors_flag_set cwd true rest).1]
    rfl
  · intro m
    simp only [run_ctors, hfirst, List.mem_append, List.mem_cons]
    rintro (⟨h1 | h1 | h1 | h1⟩ | h2)
    · exact Event.noConfusion h1
    · exact Event.noConfusion h1
    · exact Event.noConfusion h1
    · exact absurd h1 (List.not_mem_nil _)
    · exact (run_ctors_flag_set cwd true rest).2 m h2

/-- C8: every writer constructed with output directory D and layer name L
creates its backing store at cwd/D/L.sqlite, the directory component being
resolved against the process working directory; one store file per layer. -/
theorem C8_store_path (cwd d l : String) (u ds lay flag : Bool) :
    Event.createDataSource (cwd ++ "/" ++ d ++ "/" ++ l ++ ".sqlite")
      ∈ (writer_construct ⟨true, cwd, true, true, ds, lay⟩ flag d l u).events := by
  cases flag <;> cases ds <;> cases lay <;>
    simp [writer_construct, get_data_source, get_current_dir, maybe_create_dir,
      create_dir, create_layer, ProcResult.events]

/-- C5: each of the seven fatal conditions (directory creation failure,
store-driver unavailable, data-source creation failure, layer creation
failure, field creation failure, feature creation failure, working-directory
resolution failure) makes the writer emit a diagnostic and terminate at once
with exit status 1, which is non-zero; the returned traces end at the
diagnostic, so nothing runs past the failure point. -/
theorem C5_fatal_conditions (w d l ln dir : String) (a drv m u flag : Bool)
    (dso ly : Bool) (s : WriterState) (fc : field_config)
    (rest : List (field_config × Bool)) (e : Nat) :
    (create_dir ⟨a, w, drv, false, dso, ly⟩ dir
      = .exited 1 [Event.mkdirCall dir,
          Event.diagnostic ("Could not create directory " ++ dir ++ ".")])
    ∧ (get_data_source ⟨a, w, false, m, dso, ly⟩ flag d l
      = .exited 1 [Event.diagnostic "SQLite driver not available."])
    ∧ (∃ evs, writer_construct ⟨true, w, true, true, false, ly⟩ flag d l u
      = .exited 1 (evs
          ++ [Event.diagnostic ("Creation of data source for layer " ++ l ++ " failed.")]))
    ∧ (∃ evs, writer_construct ⟨true, w, true, true, true, false⟩ flag d l u
      = .exited 1 (evs
          ++ [Event.createLayerCall l,
              Event.diagnostic ("Creation of layer " ++ l ++ " failed.")]))
    ∧ (∃ evs, create_fields u ln ((fc, false) :: rest)
      = .exited 1 (evs
          ++ [Event.createFieldCall fc.name,
              Event.diagnostic ("Creating field " ++ fc.name ++ " for layer "
                ++ ln ++ " failed.")]))
    ∧ (e ≠ OGRERR_NONE →
        create_feature s e
          = ([Event.createFeatureCall,
              Event.diagnostic ("Failed to create feature. e = " ++ toString e)], none))
    ∧ (get_current_dir ⟨false, w, drv, m, dso, ly⟩
      = .exited 1 [Event.diagnostic "ERROR: Could not get current directory."])
    ∧ (1 : Nat) ≠ 0 := by
  refine ⟨?_, ?_, ?_, ?_, ?_, ?_, ?_, one_ne_zero⟩
  · simp [create_dir]
  · simp [get_data_source]
  · cases flag
    · exact ⟨[Event.mkdirCall (w ++ "/" ++ d),
        Event.createDataSource (w ++ "/" ++ d ++ "/" ++ l ++ ".sqlite")],
        by simp [writer_construct, get_data_source, get_current_dir,
          maybe_create_dir, create_dir]⟩
    · exact ⟨[Event.createDataSource (w ++ "/" ++ d ++ "/" ++ l ++ ".sqlite")],
        by simp [writer_construct, get_data_source, get_current_dir,
          maybe_create_dir, create_dir]⟩
  · cases flag
    · exact ⟨[Event.mkdirCall (w ++ "/" ++ d),
        Event.createDataSource (w ++ "/" ++ d ++ "/" ++ l ++ ".sqlite")],
        by simp [writer_construct, get_data_source, get_current_dir,
          maybe_create_dir, create_dir, create_layer]⟩
    · exact ⟨[Event.createDataSource (w ++ "/" ++ d ++ "/" ++ l ++ ".sqlite")],
        by simp [writer_construct, get_data_source, get_current_dir,
          maybe_create_dir, create_dir, create_layer]⟩
  · exact ⟨_, rfl⟩
  · intro he
    rw [create_feature, if_pos he]
  · simp [get_current_dir]

theorem countEv_eq_zero (e : Event) :
    ∀ l : List Event, e ∉ l → countEv e l = 0 := by
  intro l
  induction l with
  | nil => intro _; rfl
  | cons x rest ih =>
    intro h
    have hx : ¬ x = e := fun hx => h (by rw [← hx]; exact List.mem_cons_self x rest)
    rw [countEv_cons, if_neg hx, ih (fun hm => h (List.mem_cons_of_mem x hm))]

theorem allFieldEvents_no_start :
    ∀ fs : List (field_config × Bool), Event.startTransaction ∉ allFieldEvents fs := by
  intro fs
  induction fs with
  | nil => simp [allFieldEvents]
  | cons p rest ih =>
    obtain ⟨fc, b⟩ := p
    by_cases hw : fc.width = NO_WIDTH <;>
      simp [allFieldEvents, fieldEvents, hw, ih]

/-- When every CreateField call succeeds, create_fields adds the fields in
descriptor order and then, if transactions are enabled, starts exactly one
transaction, after all the fields. -/
theorem create_fields_success (u : Bool) (ln : String) :
    ∀ fs : List (field_config × Bool), fs.all Prod.snd = true →
      create_fields u ln fs
        = .ok () (allFieldEvents fs ++ (if u then [Event.startTransaction] else [])) := by
  intro fs
  induction fs with
  | nil => intro _; simp [create_fields, allFieldEvents]
  | cons p rest ih =>
    obtain ⟨fc, ok⟩ := p
    intro h
    simp only [List.all_cons, Bool.and_eq_true] at h
    have hok : ok = true := h.1
    subst hok
    simp only [create_fields, if_true, ih h.2]
    simp [allFieldEvents, fieldEvents]

/-- When some CreateField call fails, create_fields exits with status 1 after
a diagnostic and never starts a transaction. -/
theorem create_fields_failure (u : Bool) (ln : String) :
    ∀ fs : List (field_config × Bool), fs.all Prod.snd = false →
      ∃ evs, create_fields u ln fs = .exited 1 evs
        ∧ Event.startTransaction ∉ evs
        ∧ ∃ msg, Event.diagnostic msg ∈ evs := by
  intro fs
  induction fs with
  | nil => intro h; simp at h
  | cons p rest ih =>
    obtain ⟨fc, ok⟩ := p
    intro h
    cases ok with
    | false =>
      refine ⟨_, rfl, ?_, ?_⟩
      · by_cases hw : fc.width = NO_WIDTH <;> simp [hw]
      · exact ⟨"Creating field " ++ fc.name ++ " for layer " ++ ln ++ " failed.",
          by by_cases hw : fc.width = NO_WIDTH <;> simp [hw]⟩
    | true =>
      have hrest : rest.all Prod.snd = false := by simpa using h
      obtain ⟨evs, heq, hnotin, msg, hmsg⟩ := ih hrest
      refine ⟨(if fc.width = NO_WIDTH then [] else [Event.setFieldWidth fc.name fc.width])
          ++ Event.createFieldCall fc.name :: evs, by simp [create_fields, heq], ?_, ?_⟩
      · by_cases hw : fc.width = NO_WIDTH <;> simp [hw, hnotin]
      · exact ⟨msg, by by_cases hw : fc.width = NO_WIDTH <;> simp [hw, hmsg]⟩

/-- C7: during field-schema installation each descriptor is built and added
in input order; when all succeed and transactions are enabled exactly one
StartTransaction is issued, strictly after every field; and any single
CreateField failure is fatal (diagnostic, exit code 1) with no transaction
started at all. -/
theorem C7_schema_installation (u : Bool) (ln : String)
    (fs : List (field_config × Bool)) :
    (fs.all Prod.snd = true →
      create_fields u ln fs
        = .ok () (allFieldEvents fs ++ (if u then [Event.startTransaction] else [])))
    ∧ countEv Event.startTransaction (create_fields u ln fs).events
        = (if u = true ∧ fs.all Prod.snd = true then 1 else 0)
    ∧ (fs.all Prod.snd = false →
      ∃ evs, create_fields u ln fs = .exited 1 evs
        ∧ Event.startTransaction ∉ evs
        ∧ ∃ msg, Event.diagnostic msg ∈ evs) := by
  refine ⟨create_fields_success u ln fs, ?_, create_fields_failure u ln fs⟩
  rcases Bool.eq_false_or_eq_true (fs.all Prod.snd) with hall | hall
  · rw [create_fields_success u ln fs hall]
    simp only [ProcResult.events]
    rw [countEv_append, countEv_eq_zero _ _ (allFieldEvents_no_start fs)]
    cases u
    · simp [countEv]
    · simp [countEv, hall]
  · obtain ⟨evs, heq, hnotin, _⟩ := create_fields_failure u ln fs hall
    rw [heq]
    simp only [ProcResult.events]
    rw [countEv_eq_zero _ _ hnotin, if_neg (by simp [hall])]

theorem C7_schema_installation_witness :
    create_fields true "pois" [(⟨"type", 4, 255⟩, true)]
      = .ok () (allFieldEvents [(⟨"type", 4, 255⟩, true)]
          ++ (if true then [Event.startTransaction] else [])) := by
  have h := C7_schema_installation true "pois" [(⟨"type", 4, 255⟩, true)]
  exact h.1 (by decide)

theorem C5_fatal_conditions_witness :
    create_feature ⟨true, 0⟩ 5
      = ([Event.createFeatureCall,
          Event.diagnostic ("Failed to create feature. e = " ++ toString 5)], none) := by
  have h := C5_fatal_conditions "/w" "out" "pois" "pois" "sub" true true true true
    true true true ⟨true, 0⟩ ⟨"n", 4, 64⟩ [] 5
  exact h.2.2.2.2.2.1 (by decide)

/-- Events of create_fields with transactions disabled contain no transaction
operation, whatever the per-field results are. -/
theorem create_fields_off_no_tx (ln : String) :
    ∀ fs : List (field_config × Bool),
      Event.startTransaction ∉ (create_fields false ln fs).events
      ∧ Event.commitTransaction ∉ (create_fields false ln fs).events := by
  intro fs
  induction fs with
  | nil => simp [create_fields, ProcResult.events]
  | cons p rest ih =>
    obtain ⟨fc, ok⟩ := p
    cases ok with
    | false =>
      constructor <;> (by_cases hw : fc.width = NO_WIDTH <;>
        simp [create_fields, ProcResult.events, hw])
    | true =>
      rcases hres : create_fields false ln rest with ⟨v, evs⟩ | ⟨cd, evs⟩ <;>
        rw [hres] at ih <;>
        simp only [ProcResult.events] at ih <;>
        constructor <;>
        (by_cases hw : fc.width = NO_WIDTH <;>
          simp [create_fields, ProcResult.events, hres, hw, ih.1, ih.2])

/-- C10: when a writer runs with use_transaction false, neither create_fields
nor create_feature nor the destructor performs any transaction operation,
while create_feature still increments the unsigned per-writer counter on
every successful call and never resets it. -/
theorem C10_transactions_disabled_frame (c e : Nat) (ln : String)
    (fs : List (field_config × Bool)) :
    countEv Event.startTransaction (create_fields false ln fs).events = 0
    ∧ countEv Event.commitTransaction (create_fields false ln fs).events = 0
    ∧ countEv Event.startTransaction (create_feature ⟨false, c⟩ e).1 = 0
    ∧ countEv Event.commitTransaction (create_feature ⟨false, c⟩ e).1 = 0
    ∧ (∀ s2 : WriterState, (create_feature ⟨false, c⟩ e).2 = some s2 →
        s2.num_features = (c + 1) % UINT_MOD)
    ∧ writer_destructor ⟨false, c⟩ = [Event.destroyDataSource] := by
  have hfields := create_fields_off_no_tx ln fs
  refine ⟨countEv_eq_zero _ _ hfields.1, countEv_eq_zero _ _ hfields.2, ?_, ?_, ?_, rfl⟩
  · by_cases he : e ≠ OGRERR_NONE
    · rw [create_feature, if_pos he]
      rfl
    · push_neg at he
      subst he
      rw [create_feature_ok, mct_off]
      rfl
  · by_cases he : e ≠ OGRERR_NONE
    · rw [create_feature, if_pos he]
      rfl
    · push_neg at he
      subst he
      rw [create_feature_ok, mct_off]
      rfl
  · intro s2 hs
    by_cases he : e ≠ OGRERR_NONE
    · rw [create_feature, if_pos he] at hs
      simp at hs
    · push_neg at he
      subst he
      rw [create_feature_ok, mct_off] at hs
      simp only [Option.some.injEq] at hs
      rw [← hs]

theorem C10_transactions_disabled_frame_witness :
    (create_feature ⟨false, 3⟩ 0).2 = some ⟨false, 4⟩
    ∧ (⟨false, 4⟩ : WriterState).num_features = (3 + 1) % UINT_MOD := by
  have h := C10_transactions_disabled_frame 3 0 "pois" []
  exact ⟨by decide, h.2.2.2.2.1 ⟨false, 4⟩ (by decide)⟩

theorem countGeomDiag_append (l1 l2 : List Event) :
    countGeomDiag (l1 ++ l2) = countGeomDiag l1 + countGeomDiag l2 := by
  simp [countGeomDiag, List.filter_append]

/-- Processing any stream of path records never terminates the process, emits
one geometry diagnostic per failing record, and creates one feature per
record whose geometry converts. -/
theorem run_path_records_spec : ∀ (recs : List PathRecord) (s : WriterState),
    (run_path_records recs s).2 ≠ none
    ∧ countGeomDiag (run_path_records recs s).1
        = (recs.filter isGeomErrorRec).length
    ∧ countEv Event.createFeatureCall (run_path_records recs s).1
        = (recs.filter (fun r => !isGeomErrorRec r)).length := by
  intro recs
  induction recs with
  | nil =>
    intro s
    exact ⟨by simp [run_path_records], rfl, rfl⟩
  | cons r rest ih =>
    intro s
    cases r with
    | geomError i m =>
      simp only [run_path_records, accept_path, catch_geometry_error]
      refine ⟨(ih s).1, ?_, ?_⟩
      · rw [countGeomDiag_append, (ih s).2.1]
        simp [countGeomDiag, isGeomDiag, List.filter_cons, isGeomErrorRec]
        omega
      · rw [countEv_append, (ih s).2.2]
        simp [countEv, List.filter_cons, isGeomErrorRec]
    | valid =>
      simp only [run_path_records, accept_path, create_feature_ok]
      rcases mct_events s with hm | hm <;> rw [hm]
      · refine ⟨(ih _).1, ?_, ?_⟩
        · rw [countGeomDiag_append, (ih _).2.1]
          simp [countGeomDiag, isGeomDiag, List.filter_cons, isGeomErrorRec]
        · rw [countEv_append, (ih _).2.2]
          simp [countEv, List.filter_cons, isGeomErrorRec]
          omega
      · refine ⟨(ih _).1, ?_, ?_⟩
        · rw [countGeomDiag_append, (ih _).2.1]
          simp [countGeomDiag, isGeomDiag, List.filter_cons, isGeomErrorRec]
        · rw [countEv_append, (ih _).2.2]
          simp [countEv, List.filter_cons, isGeomErrorRec]
          omega

/-- C4: for every path record whose geometry construction fails, the writer
catches the error and emits exactly one diagnostic carrying the record id and
the cause, writes no feature for it and leaves its state untouched; the
process never terminates on geometry errors and all remaining records are
processed normally (one feature per convertible record). -/
theorem C4_geometry_error_isolation (recs : List PathRecord) (s : WriterState) :
    (run_path_records recs s).2 ≠ none
    ∧ countGeomDiag (run_path_records recs s).1
        = (recs.filter isGeomErrorRec).length
    ∧ countEv Event.createFeatureCall (run_path_records recs s).1
        = (recs.filter (fun r => !isGeomErrorRec r)).length
    ∧ (∀ (i : Int) (m : String) (s0 : WriterState),
        accept_path s0 (.geomError i m)
          = ([Event.geometryDiagnostic i m], some s0)) :=
  ⟨(run_path_records_spec recs s).1, (run_path_records_spec recs s).2.1,
   (run_path_records_spec recs s).2.2, fun _ _ _ => rfl⟩
